import Mathlib

/-!
Verification of the Vancouver trip-planner core (Go sources) against its
natural-language specification.

Shallow embedding conventions:
* Instants are minutes since a reference epoch placed at 00:00 local time
  (America/Vancouver) of a Monday; the spec fixes a local calendar
  ("pure and deterministic given a fixed local calendar"), so days are a
  constant 1440 minutes and the weekday cycles with period 7.
  `time.Time` values in the Go code are therefore `Nat` minutes here, and
  the `arrivalTime.In(loc)` conversion is the identity.  The possibility
  that `time.LoadLocation("America/Vancouver")` fails at runtime is kept
  as an explicit `tzOk : Bool` parameter where the error channel matters.
* `float64` currency amounts and weights become `ℚ`; `int` minute counts
  become `Nat` where the Go values are non-negative by construction
  (travel, walking and visit durations) and `Int` where the Go code
  tests the sign (`durationMinutes`).
* External collaborators (Google Maps travel time / geocoding, the
  parking-data repository, the haversine walking-time helper) are
  oracle parameters: the claims under study quantify over
  "identical collaborator answers".
-/

/-- Minutes-per-day of the fixed local calendar. -/
def minutesPerDay : Nat := 1440

/-- Hour-of-day (0..23) of an instant, mirroring Go `t.Hour()`. -/
def hourOf (t : Nat) : Nat := t % 1440 / 60

/-- Weekday index of an instant: 0 = Monday, …, 5 = Saturday, 6 = Sunday
(the epoch is a Monday midnight), mirroring Go `t.Weekday()`. -/
def weekdayOf (t : Nat) : Nat := t / 1440 % 7

/-- `domain.ParkingMeter` (src/app/internal/domain/models.go lines 10-33). -/
structure ParkingMeter where
  meterID : String
  lat : ℚ
  lng : ℚ
  meterType : String
  localArea : String
  creditCard : Bool
  rateMF9A6P : ℚ
  rateMF6P10 : ℚ
  rateSA9A6P : ℚ
  rateSA6P10 : ℚ
  rateSU9A6P : ℚ
  rateSU6P10 : ℚ
  timeLimitMF9A6P : Nat
  timeLimitMF6P10 : Nat
  timeLimitSA9A6P : Nat
  timeLimitSA6P10 : Nat
  timeLimitSU9A6P : Nat
  timeLimitSU6P10 : Nat
deriving DecidableEq, Repr

/-- `DefaultPricingService.IsMeterActive` (src/README.md lines 612-615):
meters are active from 9 AM (inclusive) to 10 PM (exclusive). -/
def IsMeterActive (t : Nat) : Prop := 9 ≤ hourOf t ∧ hourOf t < 22

instance instDecIsMeterActive (t : Nat) : Decidable (IsMeterActive t) :=
inferInstanceAs (Decidable (_ ∧ _))

/-- `DefaultPricingService.GetParkingRateAtTime` (src/README.md lines 579-609):
returns the hourly rate and the time limit (hours, 0 = unlimited) of the
weekday-bucket × period cell active at `t`, and `(0, 0)` outside 9 AM-10 PM. -/
def getParkingRateAtTime (meter : ParkingMeter) (t : Nat) : ℚ × Nat :=
  if ¬ IsMeterActive t then (0, 0)
  else
    let hour := hourOf t
    if weekdayOf t ≤ 4 then
      if 9 ≤ hour ∧ hour < 18 then (meter.rateMF9A6P, meter.timeLimitMF9A6P)
      else if 18 ≤ hour ∧ hour < 22 then (meter.rateMF6P10, meter.timeLimitMF6P10)
      else (0, 0)
    else if weekdayOf t = 5 then
      if 9 ≤ hour ∧ hour < 18 then (meter.rateSA9A6P, meter.timeLimitSA9A6P)
      else if 18 ≤ hour ∧ hour < 22 then (meter.rateSA6P10, meter.timeLimitSA6P10)
      else (0, 0)
    else
      if 9 ≤ hour ∧ hour < 18 then (meter.rateSU9A6P, meter.timeLimitSU9A6P)
      else if 18 ≤ hour ∧ hour < 22 then (meter.rateSU6P10, meter.timeLimitSU6P10)
      else (0, 0)

/-- `DefaultPricingService.getNextTimeBoundary` (src/README.md lines 618-638):
the first instant strictly after `t` among 9 AM, 6 PM, 10 PM of `t`'s day
and 9 AM of the next day. -/
def getNextTimeBoundary (t : Nat) : Nat :=
  let dayStart := t / 1440 * 1440
  if t < dayStart + 540 then dayStart + 540
  else if t < dayStart + 1080 then dayStart + 1080
  else if t < dayStart + 1320 then dayStart + 1320
  else dayStart + 1440 + 540

theorem lt_getNextTimeBoundary (t : Nat) : t < getNextTimeBoundary t := by
  simp only [getNextTimeBoundary]
  split_ifs <;> omega

/-- The minutes charged in one iteration of the `CalculateParkingCost` loop
(src/README.md lines 550-559): `min(remaining, minutes to next boundary)`,
further capped by `timeLimit*60` when the cell's limit `rl.2` is nonzero. -/
def minutesAtThisRate (rl : ℚ × Nat) (t rem : Nat) : Nat :=
  if 0 < rl.2 then min (min rem (getNextTimeBoundary t - t)) (rl.2 * 60)
  else min rem (getNextTimeBoundary t - t)

theorem minutesAtThisRate_pos (rl : ℚ × Nat) (t rem : Nat) (h : rem ≠ 0) :
    0 < minutesAtThisRate rl t rem := by
  have hb := lt_getNextTimeBoundary t
  unfold minutesAtThisRate
  split_ifs with h1 <;> omega

/-- The `cost := rate * minutes/60` contribution guarded by
`if minutesAtThisRate > 0` (src/README.md lines 561-564). -/
def costContribution (rate : ℚ) (m : Nat) : ℚ :=
  if 0 < m then rate * (m : ℚ) / 60 else 0

/-- The `for remainingMinutes > 0` loop of
`DefaultPricingService.CalculateParkingCost` (src/README.md lines 540-573):
returns the cost accumulated from instant `t` on, with `rem` minutes of the
stay remaining.  The loop stops (`break`) at the first inactive instant and
after a sub-interval that reaches the active cell's time limit. -/
def costLoop (meter : ParkingMeter) (t rem : Nat) : ℚ :=
  if _h0 : rem = 0 then 0
  else if _hA : ¬ IsMeterActive t then 0
  else if 0 < (getParkingRateAtTime meter t).2 ∧
      (getParkingRateAtTime meter t).2 * 60
        ≤ minutesAtThisRate (getParkingRateAtTime meter t) t rem then
    costContribution (getParkingRateAtTime meter t).1
      (minutesAtThisRate (getParkingRateAtTime meter t) t rem)
  else
    costContribution (getParkingRateAtTime meter t).1
      (minutesAtThisRate (getParkingRateAtTime meter t) t rem)
    + costLoop meter (t + minutesAtThisRate (getParkingRateAtTime meter t) t rem)
        (rem - minutesAtThisRate (getParkingRateAtTime meter t) t rem)
termination_by rem
decreasing_by
  have h1 := minutesAtThisRate_pos (getParkingRateAtTime meter t) t rem _h0
  omega

/-- `DefaultPricingService.CalculateParkingCost` (src/README.md lines 524-576),
for the successfully-loaded-timezone path; instants are already local. -/
def CalculateParkingCost (meter : ParkingMeter) (arrivalTime : Nat)
    (durationMinutes : Int) : ℚ :=
  if durationMinutes ≤ 0 then 0
  else costLoop meter arrivalTime durationMinutes.toNat

/-- `DefaultPricingService.CalculateParkingCost` with its error channel:
`tzOk` models whether `time.LoadLocation("America/Vancouver")` succeeds
(the only error source of the Go function; the duration guard precedes it). -/
def calculateParkingCostE (tzOk : Bool) (meter : ParkingMeter)
    (arrivalTime : Nat) (durationMinutes : Int) : Except String ℚ :=
  if durationMinutes ≤ 0 then .ok 0
  else if tzOk then .ok (costLoop meter arrivalTime durationMinutes.toNat)
  else .error "failed to load location"

/-- Loop body of `DefaultPricingService.GetOptimalParkingMeter`
(src/README.md lines 649-665).  The accumulator `none` models the Go state
`bestMeter == nil, bestCost == +Inf` (every finite cost beats `+Inf`, so the
first surviving meter is always adopted). -/
def optMeterStep (tzOk : Bool) (arrivalTime : Nat) (durationMinutes : Int)
    (acc : Option (ParkingMeter × ℚ)) (meter : ParkingMeter) :
    Option (ParkingMeter × ℚ) :=
  match calculateParkingCostE tzOk meter arrivalTime durationMinutes with
  | .error _ => acc
  | .ok cost =>
    let rl := getParkingRateAtTime meter arrivalTime
    if 0 < rl.2 ∧ (rl.2 : Int) * 60 < durationMinutes then acc
    else
      match acc with
      | none => some (meter, cost)
      | some best => if cost < best.2 then some (meter, cost) else acc

/-- `DefaultPricingService.GetOptimalParkingMeter` (src/README.md lines
641-672), with its error channel made explicit (all three `return`
statements of the Go function carry a `nil` error). -/
def GetOptimalParkingMeterE (tzOk : Bool) (meters : List ParkingMeter)
    (arrivalTime : Nat) (durationMinutes : Int) :
    Option ParkingMeter × ℚ × Option String :=
  if meters.length = 0 then (none, 0, none)
  else
    match meters.foldl (optMeterStep tzOk arrivalTime durationMinutes) none with
    | none => (none, 0, none)
    | some best => (some best.1, best.2, none)

/-- `DefaultPricingService.GetOptimalParkingMeter`, successful-timezone path,
error channel dropped (it is provably always `nil`). -/
def GetOptimalParkingMeter (meters : List ParkingMeter) (arrivalTime : Nat)
    (durationMinutes : Int) : Option ParkingMeter × ℚ :=
  ((GetOptimalParkingMeterE true meters arrivalTime durationMinutes).1,
   (GetOptimalParkingMeterE true meters arrivalTime durationMinutes).2.1)

theorem costLoop_of_rem_zero (meter : ParkingMeter) (t : Nat) :
    costLoop meter t 0 = 0 := by
  rw [costLoop]
  simp

theorem costLoop_of_inactive (meter : ParkingMeter) (t rem : Nat)
    (h : ¬ IsMeterActive t) : costLoop meter t rem = 0 := by
  rw [costLoop]
  simp [h]

/-- C1's reference walk, following the claim's words: sub-intervals are
delimited by the next boundary among 09:00, 18:00, 22:00 and next day's
09:00; the rate of a sub-interval is the bucket/period rate active there
(0 outside 09:00-22:00); minutes billed are min(remaining, minutes to the
next boundary); the weekday bucket rolls forward across midnight. -/
def specReferenceCostLoop (meter : ParkingMeter) (t rem : Nat) : ℚ :=
  if _h : rem = 0 then 0
  else
    (getParkingRateAtTime meter t).1
      * ((min rem (getNextTimeBoundary t - t) : Nat) : ℚ) / 60
    + specReferenceCostLoop meter (t + min rem (getNextTimeBoundary t - t))
        (rem - min rem (getNextTimeBoundary t - t))
termination_by rem
decreasing_by
  have := lt_getNextTimeBoundary t
  omega

/-- C1's reference sum for a whole stay (positive durations; duration ≤ 0
bills nothing, as in the spec's `cost(schedule, t, 0) == 0`). -/
def specReferenceCost (meter : ParkingMeter) (arrival : Nat)
    (dur : Int) : ℚ :=
  if dur ≤ 0 then 0 else specReferenceCostLoop meter arrival dur.toNat

theorem minutesAtThisRate_le_rem (rl : ℚ × Nat) (t rem : Nat) :
    minutesAtThisRate rl t rem ≤ rem := by
  unfold minutesAtThisRate
  split_ifs <;> omega

theorem minutesAtThisRate_eq_boundary (rl : ℚ × Nat) (t rem : Nat)
    (hlt : minutesAtThisRate rl t rem < rem)
    (hnb : ¬(0 < rl.2 ∧ rl.2 * 60 ≤ minutesAtThisRate rl t rem)) :
    minutesAtThisRate rl t rem = getNextTimeBoundary t - t := by
  unfold minutesAtThisRate at *
  split_ifs at * with h <;> omega

theorem active_boundary_cases (t : Nat) (h : IsMeterActive t) :
    getNextTimeBoundary t = t / 1440 * 1440 + 1080 ∨
    getNextTimeBoundary t = t / 1440 * 1440 + 1320 := by
  obtain ⟨h1, h2⟩ := h
  simp only [hourOf] at h1 h2
  simp only [getNextTimeBoundary]
  split_ifs <;> omega

theorem not_active_at_1320 (t : Nat) :
    ¬ IsMeterActive (t / 1440 * 1440 + 1320) := by
  simp only [IsMeterActive, hourOf]
  omega

theorem active_next_eq_1080 (t : Nat) (h : IsMeterActive t)
    (h2 : IsMeterActive (getNextTimeBoundary t)) :
    getNextTimeBoundary t = t / 1440 * 1440 + 1080 := by
  rcases active_boundary_cases t h with h3 | h3
  · exact h3
  · exact absurd (h3 ▸ h2) (not_active_at_1320 t)

theorem boundary_of_1080 (t : Nat) :
    getNextTimeBoundary (t / 1440 * 1440 + 1080) = t / 1440 * 1440 + 1320 := by
  simp only [getNextTimeBoundary]
  split_ifs <;> omega

theorem not_active_boundary_boundary (t : Nat) (h : IsMeterActive t)
    (h2 : IsMeterActive (getNextTimeBoundary t)) :
    ¬ IsMeterActive (getNextTimeBoundary (getNextTimeBoundary t)) := by
  rw [active_next_eq_1080 t h h2, boundary_of_1080]
  exact not_active_at_1320 t

/-- The amendment of C1's reference sum that the code actually satisfies:
billing covers at most the first two boundary-delimited sub-intervals after
arrival.  An arrival outside 09:00-22:00 costs 0 outright (billing never
starts, even if the stay later enters a charged window); otherwise the first
sub-interval bills min(stay, minutes to next boundary, 60×limit when the
cell's limit is nonzero) at the active cell's rate; billing ends there if the
limit was exhausted, the stay fits, or the boundary reached is outside
09:00-22:00; otherwise one further sub-interval is billed the same way from
that boundary, after which the remainder of the stay (necessarily reaching
22:00) is never billed — the weekday bucket never rolls across midnight. -/
def specAmendedCost (meter : ParkingMeter) (arrival : Nat) (dur : Int) : ℚ :=
  if dur ≤ 0 then 0
  else if ¬ IsMeterActive arrival then 0
  else
    let d := dur.toNat
    let rl₁ := getParkingRateAtTime meter arrival
    let b₁ := getNextTimeBoundary arrival
    let m₁ := if rl₁.2 = 0 then min d (b₁ - arrival)
              else min (min d (b₁ - arrival)) (rl₁.2 * 60)
    let c₁ := rl₁.1 * (m₁ : ℚ) / 60
    if rl₁.2 ≠ 0 ∧ rl₁.2 * 60 ≤ m₁ then c₁
    else if d ≤ m₁ then c₁
    else if ¬ IsMeterActive b₁ then c₁
    else
      let rl₂ := getParkingRateAtTime meter b₁
      let b₂ := getNextTimeBoundary b₁
      let m₂ := if rl₂.2 = 0 then min (d - m₁) (b₂ - b₁)
                else min (min (d - m₁) (b₂ - b₁)) (rl₂.2 * 60)
      c₁ + rl₂.1 * (m₂ : ℚ) / 60

theorem specAmended_m_eq (rl : ℚ × Nat) (t rem : Nat) :
    (if rl.2 = 0 then min rem (getNextTimeBoundary t - t)
     else min (min rem (getNextTimeBoundary t - t)) (rl.2 * 60))
      = minutesAtThisRate rl t rem := by
  unfold minutesAtThisRate
  split_ifs <;> omega

theorem costLoop_eq_two_step (meter : ParkingMeter) (arrival d : Nat)
    (hd : d ≠ 0) (hA : IsMeterActive arrival) :
    costLoop meter arrival d =
      if (getParkingRateAtTime meter arrival).2 ≠ 0 ∧
          (getParkingRateAtTime meter arrival).2 * 60
            ≤ minutesAtThisRate (getParkingRateAtTime meter arrival) arrival d then
        (getParkingRateAtTime meter arrival).1
          * ((minutesAtThisRate (getParkingRateAtTime meter arrival) arrival d : Nat) : ℚ) / 60
      else if d ≤ minutesAtThisRate (getParkingRateAtTime meter arrival) arrival d then
        (getParkingRateAtTime meter arrival).1
          * ((minutesAtThisRate (getParkingRateAtTime meter arrival) arrival d : Nat) : ℚ) / 60
      else if ¬ IsMeterActive (getNextTimeBoundary arrival) then
        (getParkingRateAtTime meter arrival).1
          * ((minutesAtThisRate (getParkingRateAtTime meter arrival) arrival d : Nat) : ℚ) / 60
      else
        (getParkingRateAtTime meter arrival).1
          * ((minutesAtThisRate (getParkingRateAtTime meter arrival) arrival d : Nat) : ℚ) / 60
        + (getParkingRateAtTime meter (getNextTimeBoundary arrival)).1
          * ((minutesAtThisRate (getParkingRateAtTime meter (getNextTimeBoundary arrival))
                (getNextTimeBoundary arrival)
                (d - minutesAtThisRate (getParkingRateAtTime meter arrival) arrival d) : Nat) : ℚ) / 60 := by
  have hm1pos : 0 < minutesAtThisRate (getParkingRateAtTime meter arrival) arrival d :=
    minutesAtThisRate_pos _ arrival d hd
  have hcc1 : costContribution (getParkingRateAtTime meter arrival).1
      (minutesAtThisRate (getParkingRateAtTime meter arrival) arrival d)
      = (getParkingRateAtTime meter arrival).1
        * ((minutesAtThisRate (getParkingRateAtTime meter arrival) arrival d : Nat) : ℚ) / 60 := by
    rw [costContribution, if_pos hm1pos]
  rw [costLoop, dif_neg hd, dif_neg (not_not_intro hA)]
  by_cases hbrk : 0 < (getParkingRateAtTime meter arrival).2 ∧
      (getParkingRateAtTime meter arrival).2 * 60
        ≤ minutesAtThisRate (getParkingRateAtTime meter arrival) arrival d
  · rw [if_pos hbrk, if_pos ⟨Nat.pos_iff_ne_zero.mp hbrk.1, hbrk.2⟩, hcc1]
  · rw [if_neg hbrk,
      if_neg (fun hc => hbrk ⟨Nat.pos_iff_ne_zero.mpr hc.1, hc.2⟩), hcc1]
    by_cases hfit : d ≤ minutesAtThisRate (getParkingRateAtTime meter arrival) arrival d
    · rw [if_pos hfit]
      have hz : d - minutesAtThisRate (getParkingRateAtTime meter arrival) arrival d = 0 := by
        omega
      rw [hz, costLoop_of_rem_zero, add_zero]
    · rw [if_neg hfit]
      have hm1b := minutesAtThisRate_eq_boundary (getParkingRateAtTime meter arrival)
        arrival d (by omega) hbrk
      have harr : arrival + minutesAtThisRate (getParkingRateAtTime meter arrival) arrival d
          = getNextTimeBoundary arrival := by
        have := lt_getNextTimeBoundary arrival
        omega
      rw [harr]
      by_cases hA2 : IsMeterActive (getNextTimeBoundary arrival)
      · rw [if_neg (not_not_intro hA2)]
        have hd2 : d - minutesAtThisRate (getParkingRateAtTime meter arrival) arrival d ≠ 0 := by
          omega
        have hm2pos : 0 < minutesAtThisRate
            (getParkingRateAtTime meter (getNextTimeBoundary arrival))
            (getNextTimeBoundary arrival)
            (d - minutesAtThisRate (getParkingRateAtTime meter arrival) arrival d) :=
          minutesAtThisRate_pos _ _ _ hd2
        have hcc2 : costContribution
            (getParkingRateAtTime meter (getNextTimeBoundary arrival)).1
            (minutesAtThisRate (getParkingRateAtTime meter (getNextTimeBoundary arrival))
              (getNextTimeBoundary arrival)
              (d - minutesAtThisRate (getParkingRateAtTime meter arrival) arrival d))
            = (getParkingRateAtTime meter (getNextTimeBoundary arrival)).1
              * ((minutesAtThisRate (getParkingRateAtTime meter (getNextTimeBoundary arrival))
                  (getNextTimeBoundary arrival)
                  (d - minutesAtThisRate (getParkingRateAtTime meter arrival) arrival d) : Nat) : ℚ) / 60 := by
          rw [costContribution, if_pos hm2pos]
        rw [costLoop, dif_neg hd2, dif_neg (not_not_intro hA2)]
        by_cases hbrk2 : 0 < (getParkingRateAtTime meter (getNextTimeBoundary arrival)).2 ∧
            (getParkingRateAtTime meter (getNextTimeBoundary arrival)).2 * 60
              ≤ minutesAtThisRate (getParkingRateAtTime meter (getNextTimeBoundary arrival))
                  (getNextTimeBoundary arrival)
                  (d - minutesAtThisRate (getParkingRateAtTime meter arrival) arrival d)
        · rw [if_pos hbrk2, hcc2]
        · rw [if_neg hbrk2, hcc2]
          by_cases hfit2 : d - minutesAtThisRate (getParkingRateAtTime meter arrival) arrival d
              - minutesAtThisRate (getParkingRateAtTime meter (getNextTimeBoundary arrival))
                  (getNextTimeBoundary arrival)
                  (d - minutesAtThisRate (getParkingRateAtTime meter arrival) arrival d) = 0
          · rw [hfit2, costLoop_of_rem_zero, add_zero]
          · have hm2b := minutesAtThisRate_eq_boundary
              (getParkingRateAtTime meter (getNextTimeBoundary arrival))
              (getNextTimeBoundary arrival)
              (d - minutesAtThisRate (getParkingRateAtTime meter arrival) arrival d)
              (by omega) hbrk2
            have harr2 : getNextTimeBoundary arrival
                + minutesAtThisRate (getParkingRateAtTime meter (getNextTimeBoundary arrival))
                    (getNextTimeBoundary arrival)
                    (d - minutesAtThisRate (getParkingRateAtTime meter arrival) arrival d)
                = getNextTimeBoundary (getNextTimeBoundary arrival) := by
              have := lt_getNextTimeBoundary (getNextTimeBoundary arrival)
              omega
            rw [harr2,
              costLoop_of_inactive _ _ _ (not_active_boundary_boundary arrival hA hA2),
              add_zero]
      · rw [if_pos hA2, costLoop_of_inactive _ _ _ hA2, add_zero]

/-- C1 (amended): `CalculateParkingCost` equals the amended reference sum
`specAmendedCost`: at most the first two boundary-delimited sub-intervals
after arrival are billed, an arrival outside 09:00-22:00 is free outright,
minutes per sub-interval are additionally capped by the active cell's time
limit, and billing stops once a limit is exhausted or once the walk leaves
09:00-22:00 — the weekday bucket never rolls forward across midnight. -/
theorem claim_C1_amended (meter : ParkingMeter) (arrival : Nat) (dur : Int) :
    CalculateParkingCost meter arrival dur = specAmendedCost meter arrival dur := by
  unfold CalculateParkingCost specAmendedCost
  by_cases hdle : dur ≤ 0
  · simp [hdle]
  rw [if_neg hdle, if_neg hdle]
  by_cases hA : IsMeterActive arrival
  swap
  · rw [if_pos hA, costLoop_of_inactive meter arrival _ hA]
  rw [if_neg (not_not_intro hA)]
  simp only [specAmended_m_eq]
  have hd : dur.toNat ≠ 0 := by omega
  exact costLoop_eq_two_step meter arrival dur.toNat hd hA

/-- A meter with typical weekday rates ($3.50 day, $2.00 evening) and no
time limits, used to separate `CalculateParkingCost` from C1's reference. -/
def unlimitedMeter : ParkingMeter :=
  { meterID := "UNLIM", lat := 0, lng := 0, meterType := "Single",
    localArea := "Downtown", creditCard := true,
    rateMF9A6P := 7/2, rateMF6P10 := 2,
    rateSA9A6P := 0, rateSA6P10 := 0, rateSU9A6P := 0, rateSU6P10 := 0,
    timeLimitMF9A6P := 0, timeLimitMF6P10 := 0,
    timeLimitSA9A6P := 0, timeLimitSA6P10 := 0,
    timeLimitSU9A6P := 0, timeLimitSU6P10 := 0 }

/-- C1 (counterexample): Monday 08:00 arrival (minute 480), 120-minute stay.
The claim's reference walk bills the 09:00-10:00 hour at the day rate
($3.50), but `CalculateParkingCost` breaks out of its loop at the first
inactive instant and returns 0 — the two disagree. -/
theorem claim_C1_counterexample :
    CalculateParkingCost unlimitedMeter 480 120 = 0 ∧
    specReferenceCost unlimitedMeter 480 120 = 7/2 ∧
    CalculateParkingCost unlimitedMeter 480 120
      ≠ specReferenceCost unlimitedMeter 480 120 := by
  have h1 : CalculateParkingCost unlimitedMeter 480 120 = 0 := by
    rw [CalculateParkingCost, if_neg (by norm_num)]
    exact costLoop_of_inactive unlimitedMeter 480 _ (by decide)
  have e120 : (120 : Int).toNat = 120 := rfl
  have h2 : specReferenceCost unlimitedMeter 480 120 = 7/2 := by
    rw [specReferenceCost, if_neg (by norm_num), e120]
    rw [specReferenceCostLoop]
    norm_num [getNextTimeBoundary, getParkingRateAtTime, IsMeterActive, hourOf,
      weekdayOf, unlimitedMeter, Nat.min_def]
    rw [specReferenceCostLoop]
    norm_num [getNextTimeBoundary, getParkingRateAtTime, IsMeterActive, hourOf,
      weekdayOf, unlimitedMeter, Nat.min_def]
    rw [specReferenceCostLoop]
    norm_num
  exact ⟨h1, h2, by rw [h1, h2]; norm_num⟩

/-- The meter of `TestPricingService_CrossPeriodParkingCost`
(src/app/internal/service/pricing_service_test.go lines 105-111). -/
def crossPeriodMeter : ParkingMeter :=
  { meterID := "CROSS001", lat := 0, lng := 0, meterType := "Single",
    localArea := "Downtown", creditCard := true,
    rateMF9A6P := 4, rateMF6P10 := 5/2,
    rateSA9A6P := 0, rateSA6P10 := 0, rateSU9A6P := 0, rateSU6P10 := 0,
    timeLimitMF9A6P := 4, timeLimitMF6P10 := 4,
    timeLimitSA9A6P := 0, timeLimitSA6P10 := 0,
    timeLimitSU9A6P := 0, timeLimitSU6P10 := 0 }

/-- C6: for the day $4.00/hr (4 h limit) / evening $2.50/hr (4 h limit)
schedule, a 17:30 arrival (minute `day*1440 + 1050`) on any weekday
Mon-Fri with a 120-minute stay costs 0.5×4.00 + 1.5×2.50 = 5.75. -/
theorem claim_C6_cross_period_cost (day : Nat) (hday : day < 5) :
    CalculateParkingCost crossPeriodMeter (day * 1440 + 1050) 120
      = 1/2 * 4 + 3/2 * (5/2) := by
  have e120 : (120 : Int).toNat = 120 := rfl
  interval_cases day <;>
  · rw [CalculateParkingCost, if_neg (by norm_num), e120]
    rw [costLoop]
    norm_num [minutesAtThisRate, costContribution, getNextTimeBoundary,
      getParkingRateAtTime, IsMeterActive, hourOf, weekdayOf, crossPeriodMeter,
      Nat.min_def]
    rw [costLoop]
    norm_num [minutesAtThisRate, costContribution, getNextTimeBoundary,
      getParkingRateAtTime, IsMeterActive, hourOf, weekdayOf, crossPeriodMeter,
      Nat.min_def]
    rw [costLoop]
    norm_num

/-- Witness for C6 on Monday (day index 0, minute 1050). -/
theorem claim_C6_witness :
    0 < 5 ∧ CalculateParkingCost crossPeriodMeter (0 * 1440 + 1050) 120
      = 1/2 * 4 + 3/2 * (5/2) :=
  ⟨by decide, claim_C6_cross_period_cost 0 (by decide)⟩

/-- C9: `GetOptimalParkingMeter` always returns a nil error — for every
meter list (including the empty list and lists where every meter is
filtered out) and even when the inner cost calculation errors — and an
infeasible selection is signalled by a `none` meter paired with cost 0. -/
theorem claim_C9_no_error (tzOk : Bool) (meters : List ParkingMeter)
    (arrivalTime : Nat) (durationMinutes : Int) :
    (GetOptimalParkingMeterE tzOk meters arrivalTime durationMinutes).2.2 = none ∧
    ((GetOptimalParkingMeterE tzOk meters arrivalTime durationMinutes).1 = none →
      (GetOptimalParkingMeterE tzOk meters arrivalTime durationMinutes).2.1 = 0) := by
  unfold GetOptimalParkingMeterE
  split_ifs with h
  · exact ⟨rfl, fun _ => rfl⟩
  · rcases h2 : meters.foldl (optMeterStep tzOk arrivalTime durationMinutes) none with _ | best <;>
      simp [h2]

/-- The `best := routes[0]; for route in routes: if f route < f best …` scan
used three times by `DefaultRoutingService.selectOptimalPlans`
(src/internal/service/routing_service.go lines 259-280) and, on the
accumulator of `GetOptimalParkingMeter`, by the pricing service. -/
def scanMinBy {α β : Type} [LinearOrder β] (f : α → β) (init : α)
    (l : List α) : α :=
  l.foldl (fun best r => if f r < f best then r else best) init

theorem scanMinBy_spec {α β : Type} [LinearOrder β] (f : α → β) :
    ∀ (l : List α) (init : α),
    (scanMinBy f init l = init ∧ ∀ x ∈ l, f init ≤ f x)
    ∨ (∃ pre m post, l = pre ++ m :: post ∧ scanMinBy f init l = m
        ∧ f m < f init ∧ (∀ x ∈ pre, f m < f x) ∧ (∀ x ∈ l, f m ≤ f x)) := by
  intro l
  induction l with
  | nil => intro init; left; exact ⟨rfl, by simp⟩
  | cons x l ih =>
    intro init
    by_cases hx : f x < f init
    · have hstep : scanMinBy f init (x :: l) = scanMinBy f x l := by
        simp [scanMinBy, hx]
      rcases ih x with ⟨hw, hmin⟩ | ⟨pre, m, post, hl, hw, hlt, hpre, hmin⟩
      · right
        refine ⟨[], x, l, by simp, hstep.trans hw, hx, by simp, ?_⟩
        intro y hy
        rcases List.mem_cons.mp hy with rfl | hy
        · exact le_refl _
        · exact hmin y hy
      · right
        refine ⟨x :: pre, m, post, by simp [hl], hstep.trans hw,
          lt_trans hlt hx, ?_, ?_⟩
        · intro y hy
          rcases List.mem_cons.mp hy with rfl | hy
          · exact hlt
          · exact hpre y hy
        · intro y hy
          rcases List.mem_cons.mp hy with rfl | hy
          · exact le_of_lt hlt
          · exact hmin y (hl ▸ hy)
    · have hstep : scanMinBy f init (x :: l) = scanMinBy f init l := by
        simp [scanMinBy, hx]
      rcases ih init with ⟨hw, hmin⟩ | ⟨pre, m, post, hl, hw, hlt, hpre, hmin⟩
      · left
        refine ⟨hstep.trans hw, ?_⟩
        intro y hy
        rcases List.mem_cons.mp hy with rfl | hy
        · exact le_of_not_lt hx
        · exact hmin y hy
      · right
        refine ⟨x :: pre, m, post, by simp [hl], hstep.trans hw, hlt, ?_, ?_⟩
        · intro y hy
          rcases List.mem_cons.mp hy with rfl | hy
          · exact lt_of_lt_of_le hlt (le_of_not_lt hx)
          · exact hpre y hy
        · intro y hy
          rcases List.mem_cons.mp hy with rfl | hy
          · exact le_of_lt (lt_of_lt_of_le hlt (le_of_not_lt hx))
          · exact hmin y (hl ▸ hy)

theorem scanMinBy_le {α β : Type} [LinearOrder β] (f : α → β) (l : List α)
    (init : α) : ∀ x ∈ l, f (scanMinBy f init l) ≤ f x := by
  intro x hx
  rcases scanMinBy_spec f l init with ⟨hw, hmin⟩ | ⟨_, m, _, _, hw, _, _, hmin⟩ <;>
    rw [hw]
  · exact hmin x hx
  · exact hmin x hx

/-- The meters *not* skipped by `GetOptimalParkingMeter`'s feasibility check
(src/README.md lines 655-659): a meter is kept unless the time limit of the
cell active at arrival is nonzero and, in minutes, below the duration. -/
def feasibleMeters (meters : List ParkingMeter) (arrivalTime : Nat)
    (durationMinutes : Int) : List ParkingMeter :=
  meters.filter fun meter =>
    !(decide (0 < (getParkingRateAtTime meter arrivalTime).2 ∧
        ((getParkingRateAtTime meter arrivalTime).2 : Int) * 60 < durationMinutes))

/-- The accumulator update of `GetOptimalParkingMeter` restricted to meters
that pass the feasibility check. -/
def pureMinStep (arrivalTime : Nat) (durationMinutes : Int)
    (acc : Option (ParkingMeter × ℚ)) (meter : ParkingMeter) :
    Option (ParkingMeter × ℚ) :=
  match acc with
  | none => some (meter, CalculateParkingCost meter arrivalTime durationMinutes)
  | some best =>
    if CalculateParkingCost meter arrivalTime durationMinutes < best.2
    then some (meter, CalculateParkingCost meter arrivalTime durationMinutes)
    else acc

theorem optMeterStep_true (t : Nat) (d : Int) (acc : Option (ParkingMeter × ℚ))
    (m : ParkingMeter) :
    optMeterStep true t d acc m =
      if 0 < (getParkingRateAtTime m t).2 ∧
          ((getParkingRateAtTime m t).2 : Int) * 60 < d
      then acc else pureMinStep t d acc m := by
  unfold optMeterStep calculateParkingCostE pureMinStep CalculateParkingCost
  by_cases hd : d ≤ 0 <;> cases acc <;> simp [hd]

theorem foldl_optMeterStep_eq (t : Nat) (d : Int) :
    ∀ (ms : List ParkingMeter) (acc : Option (ParkingMeter × ℚ)),
    ms.foldl (optMeterStep true t d) acc
      = (feasibleMeters ms t d).foldl (pureMinStep t d) acc := by
  intro ms
  induction ms with
  | nil => intro acc; rfl
  | cons m ms ih =>
    intro acc
    by_cases hc : 0 < (getParkingRateAtTime m t).2 ∧
        ((getParkingRateAtTime m t).2 : Int) * 60 < d
    · rw [List.foldl_cons, optMeterStep_true, if_pos hc]
      have hf : feasibleMeters (m :: ms) t d = feasibleMeters ms t d := by
        simp [feasibleMeters, List.filter_cons, hc] <;> omega
      rw [hf]
      exact ih acc
    · rw [List.foldl_cons, optMeterStep_true, if_neg hc]
      have hf : feasibleMeters (m :: ms) t d = m :: feasibleMeters ms t d := by
        simp [feasibleMeters, List.filter_cons, hc] <;> omega
      rw [hf, List.foldl_cons]
      exact ih _

theorem foldl_pureMinStep_some (t : Nat) (d : Int) :
    ∀ (l : List ParkingMeter) (bm : ParkingMeter),
    l.foldl (pureMinStep t d) (some (bm, CalculateParkingCost bm t d))
      = some (scanMinBy (fun m => CalculateParkingCost m t d) bm l,
          CalculateParkingCost
            (scanMinBy (fun m => CalculateParkingCost m t d) bm l) t d) := by
  intro l
  induction l with
  | nil => intro bm; rfl
  | cons x l ih =>
    intro bm
    rw [List.foldl_cons]
    have hstep : pureMinStep t d (some (bm, CalculateParkingCost bm t d)) x
        = some ((if CalculateParkingCost x t d < CalculateParkingCost bm t d
                 then x else bm),
            CalculateParkingCost
              (if CalculateParkingCost x t d < CalculateParkingCost bm t d
               then x else bm) t d) := by
      unfold pureMinStep
      split_ifs with h <;> simp [h]
    rw [hstep, ih]
    rfl

/-- C3: `GetOptimalParkingMeter` excludes exactly the meters whose time
limit at the arrival instant is nonzero and below the duration
(`feasibleMeters` keeps the rest); when survivors exist it returns a
survivor together with its `CalculateParkingCost`, minimal over all
survivors, and every survivor listed earlier is strictly more expensive
(first-seen wins on ties). -/
theorem claim_C3_optimal_meter (meters : List ParkingMeter)
    (arrivalTime : Nat) (durationMinutes : Int)
    (hne : feasibleMeters meters arrivalTime durationMinutes ≠ []) :
    ∃ best pre post,
      GetOptimalParkingMeter meters arrivalTime durationMinutes
        = (some best, CalculateParkingCost best arrivalTime durationMinutes) ∧
      feasibleMeters meters arrivalTime durationMinutes = pre ++ best :: post ∧
      (∀ m ∈ pre, CalculateParkingCost best arrivalTime durationMinutes
        < CalculateParkingCost m arrivalTime durationMinutes) ∧
      (∀ m ∈ feasibleMeters meters arrivalTime durationMinutes,
        CalculateParkingCost best arrivalTime durationMinutes
          ≤ CalculateParkingCost m arrivalTime durationMinutes) := by
  obtain ⟨s, rest, hs⟩ : ∃ s rest,
      feasibleMeters meters arrivalTime durationMinutes = s :: rest := by
    cases h : feasibleMeters meters arrivalTime durationMinutes with
    | nil => exact absurd h hne
    | cons a l => exact ⟨a, l, rfl⟩
  have hml : ¬ meters.length = 0 := by
    intro h0
    rw [List.length_eq_zero.mp h0] at hs
    simp [feasibleMeters] at hs
  have hfold : meters.foldl (optMeterStep true arrivalTime durationMinutes) none
      = some (scanMinBy (fun m => CalculateParkingCost m arrivalTime durationMinutes) s rest,
          CalculateParkingCost
            (scanMinBy (fun m => CalculateParkingCost m arrivalTime durationMinutes) s rest)
            arrivalTime durationMinutes) := by
    rw [foldl_optMeterStep_eq, hs, List.foldl_cons]
    have h1 : pureMinStep arrivalTime durationMinutes none s
        = some (s, CalculateParkingCost s arrivalTime durationMinutes) := rfl
    rw [h1, foldl_pureMinStep_some]
  have hres : GetOptimalParkingMeter meters arrivalTime durationMinutes
      = (some (scanMinBy (fun m => CalculateParkingCost m arrivalTime durationMinutes) s rest),
         CalculateParkingCost
           (scanMinBy (fun m => CalculateParkingCost m arrivalTime durationMinutes) s rest)
           arrivalTime durationMinutes) := by
    unfold GetOptimalParkingMeter GetOptimalParkingMeterE
    rw [if_neg hml, hfold]
  rcases scanMinBy_spec (fun m => CalculateParkingCost m arrivalTime durationMinutes)
      rest s with ⟨hw, hmin⟩ | ⟨pre, m, post, hl, hw, hlt, hpre, hmin⟩
  · refine ⟨s, [], rest, ?_, by simpa using hs, by simp, ?_⟩
    · rw [hres, hw]
    · intro m hm
      rw [hs] at hm
      rcases List.mem_cons.mp hm with rfl | hm
      · exact le_refl _
      · exact hmin m hm
  · refine ⟨m, s :: pre, post, ?_, ?_, ?_, ?_⟩
    · rw [hres, hw]
    · rw [hs, hl]
      rfl
    · intro x hx
      rcases List.mem_cons.mp hx with rfl | hx
      · exact hlt
      · exact hpre x hx
    · intro x hx
      rw [hs] at hx
      rcases List.mem_cons.mp hx with rfl | hx
      · exact le_of_lt hlt
      · exact hmin x (hl ▸ hx)

/-- Witness for C3 at a concrete input: one unlimited meter, Monday 10:00
(minute 600), 60-minute stay. -/
theorem claim_C3_witness :
    feasibleMeters [unlimitedMeter] 600 60 ≠ [] ∧
    (∃ best pre post,
      GetOptimalParkingMeter [unlimitedMeter] 600 60
        = (some best, CalculateParkingCost best 600 60) ∧
      feasibleMeters [unlimitedMeter] 600 60 = pre ++ best :: post ∧
      (∀ m ∈ pre, CalculateParkingCost best 600 60
        < CalculateParkingCost m 600 60) ∧
      (∀ m ∈ feasibleMeters [unlimitedMeter] 600 60,
        CalculateParkingCost best 600 60 ≤ CalculateParkingCost m 600 60)) :=
  ⟨by decide, claim_C3_optimal_meter [unlimitedMeter] 600 60 (by decide)⟩

/-- `domain.Location` (src/app/internal/domain/models.go lines 80-83). -/
structure Location where
  lat : ℚ
  lng : ℚ
deriving DecidableEq, Repr

/-- `domain.Stop` (src/app/internal/domain/models.go lines 36-44).
The `ArrivalTime`/`DepartureTime` fields are omitted: the routing and
pricing code under study never reads or writes them. -/
structure Stop where
  id : String
  address : String
  lat : ℚ
  lng : ℚ
  duration : Nat
deriving DecidableEq, Repr

/-- `domain.RouteSegment` (src/app/internal/domain/models.go lines 47-54). -/
structure RouteSegment where
  fromStop : Stop
  toStop : Stop
  parkingMeter : ParkingMeter
  travelTime : Nat
  parkingCost : ℚ
  walkingTime : Nat
deriving DecidableEq, Repr

/-- `service.RouteCandidate` (src/internal/service/routing_service.go lines
109-115, identical in src/unnamed/part_007 lines 109-115). -/
structure RouteCandidate where
  stops : List Stop
  segments : List RouteSegment
  totalCost : ℚ
  totalTime : Nat
  hybridScore : ℚ
deriving DecidableEq, Repr

/-- `domain.TripPlan` (src/app/internal/domain/models.go lines 57-63).
The `Metadata` map holds display strings formatted from floats
(`fmt.Sprintf`); it is not modelled, no claim refers to it. -/
structure TripPlan where
  type : String
  totalCost : ℚ
  totalTime : Nat
  route : List RouteSegment
deriving DecidableEq, Repr

/-- `DefaultRoutingService.selectOptimalPlans`
(src/internal/service/routing_service.go lines 253-316): three
strict-`<` scans seeded with `routes[0]` over the whole list, then the
three plans in order cheapest, fastest, hybrid. -/
def selectOptimalPlans (routes : List RouteCandidate) : List TripPlan :=
  match routes with
  | [] => []
  | first :: _ =>
    [ { type := "cheapest",
        totalCost := (scanMinBy RouteCandidate.totalCost first routes).totalCost,
        totalTime := (scanMinBy RouteCandidate.totalCost first routes).totalTime,
        route := (scanMinBy RouteCandidate.totalCost first routes).segments },
      { type := "fastest",
        totalCost := (scanMinBy RouteCandidate.totalTime first routes).totalCost,
        totalTime := (scanMinBy RouteCandidate.totalTime first routes).totalTime,
        route := (scanMinBy RouteCandidate.totalTime first routes).segments },
      { type := "hybrid",
        totalCost := (scanMinBy RouteCandidate.hybridScore first routes).totalCost,
        totalTime := (scanMinBy RouteCandidate.hybridScore first routes).totalTime,
        route := (scanMinBy RouteCandidate.hybridScore first routes).segments } ]

/-- `DefaultRoutingService.selectOptimalPlans` as it appears in the second
copy of the routing service (src/unnamed/part_007 lines 235-298); its text
is identical to the first copy's. -/
def selectOptimalPlansB (routes : List RouteCandidate) : List TripPlan :=
  match routes with
  | [] => []
  | first :: _ =>
    [ { type := "cheapest",
        totalCost := (scanMinBy RouteCandidate.totalCost first routes).totalCost,
        totalTime := (scanMinBy RouteCandidate.totalCost first routes).totalTime,
        route := (scanMinBy RouteCandidate.totalCost first routes).segments },
      { type := "fastest",
        totalCost := (scanMinBy RouteCandidate.totalTime first routes).totalCost,
        totalTime := (scanMinBy RouteCandidate.totalTime first routes).totalTime,
        route := (scanMinBy RouteCandidate.totalTime first routes).segments },
      { type := "hybrid",
        totalCost := (scanMinBy RouteCandidate.hybridScore first routes).totalCost,
        totalTime := (scanMinBy RouteCandidate.hybridScore first routes).totalTime,
        route := (scanMinBy RouteCandidate.hybridScore first routes).segments } ]

/-- C5: on a non-empty candidate list the selector returns exactly three
plans typed cheapest/fastest/hybrid; the cheapest plan's totalCost and the
fastest plan's totalTime are minimal over all candidates; and with a single
candidate all three plans carry that candidate's totals and segments. -/
theorem claim_C5_plan_selector (routes : List RouteCandidate)
    (hne : routes ≠ []) :
    ∃ p1 p2 p3, selectOptimalPlans routes = [p1, p2, p3] ∧
      p1.type = "cheapest" ∧ p2.type = "fastest" ∧ p3.type = "hybrid" ∧
      (∀ r ∈ routes, p1.totalCost ≤ r.totalCost) ∧
      (∀ r ∈ routes, p2.totalTime ≤ r.totalTime) ∧
      (∀ c, routes = [c] →
        (p1.totalCost = c.totalCost ∧ p1.totalTime = c.totalTime
          ∧ p1.route = c.segments) ∧
        (p2.totalCost = c.totalCost ∧ p2.totalTime = c.totalTime
          ∧ p2.route = c.segments) ∧
        (p3.totalCost = c.totalCost ∧ p3.totalTime = c.totalTime
          ∧ p3.route = c.segments)) := by
  cases routes with
  | nil => exact absurd rfl hne
  | cons first rest =>
    refine ⟨_, _, _, rfl, rfl, rfl, rfl, ?_, ?_, ?_⟩
    · intro r hr
      exact scanMinBy_le RouteCandidate.totalCost (first :: rest) first r hr
    · intro r hr
      exact scanMinBy_le RouteCandidate.totalTime (first :: rest) first r hr
    · intro c hc
      injection hc with h1 h2
      subst h1
      subst h2
      simp [scanMinBy]

/-- Witness candidate for the plan-selector claims. -/
def soloRoute : RouteCandidate :=
  { stops := [], segments := [], totalCost := 3, totalTime := 7,
    hybridScore := 2 }

/-- Witness for C5: the singleton candidate list. -/
theorem claim_C5_witness :
    [soloRoute] ≠ ([] : List RouteCandidate) ∧
    (∃ p1 p2 p3, selectOptimalPlans [soloRoute] = [p1, p2, p3] ∧
      p1.type = "cheapest" ∧ p2.type = "fastest" ∧ p3.type = "hybrid" ∧
      (∀ r ∈ [soloRoute], p1.totalCost ≤ r.totalCost) ∧
      (∀ r ∈ [soloRoute], p2.totalTime ≤ r.totalTime) ∧
      (∀ c, [soloRoute] = [c] →
        (p1.totalCost = c.totalCost ∧ p1.totalTime = c.totalTime
          ∧ p1.route = c.segments) ∧
        (p2.totalCost = c.totalCost ∧ p2.totalTime = c.totalTime
          ∧ p2.route = c.segments) ∧
        (p3.totalCost = c.totalCost ∧ p3.totalTime = c.totalTime
          ∧ p3.route = c.segments))) :=
  ⟨by decide, claim_C5_plan_selector [soloRoute] (by decide)⟩

/-- Two candidates tying on totalCost, the later one strictly faster. -/
def costTieRouteA : RouteCandidate :=
  { stops := [], segments := [], totalCost := 2, totalTime := 10,
    hybridScore := 0 }

def costTieRouteB : RouteCandidate :=
  { stops := [], segments := [], totalCost := 2, totalTime := 5,
    hybridScore := 0 }

/-- Two candidates tying on totalTime, the later one strictly cheaper. -/
def timeTieRouteA : RouteCandidate :=
  { stops := [], segments := [], totalCost := 3, totalTime := 7,
    hybridScore := 0 }

def timeTieRouteB : RouteCandidate :=
  { stops := [], segments := [], totalCost := 1, totalTime := 7,
    hybridScore := 0 }

/-- C2 (counterexample): the claim's tie-breaks fail on both objectives.
With two equal-cost candidates the claim requires the cheapest plan to carry
the lower totalTime (5), but the scan keeps the first candidate (totalTime
10); with two equal-time candidates the claim requires the fastest plan to
carry the lower totalCost (1), but the scan keeps the first (totalCost 3). -/
theorem claim_C2_counterexample :
    (costTieRouteA.totalCost = costTieRouteB.totalCost ∧
     costTieRouteB.totalTime < costTieRouteA.totalTime ∧
     (selectOptimalPlans [costTieRouteA, costTieRouteB]).head?.map
       TripPlan.totalTime = some 10) ∧
    (timeTieRouteA.totalTime = timeTieRouteB.totalTime ∧
     timeTieRouteB.totalCost < timeTieRouteA.totalCost ∧
     ((selectOptimalPlans [timeTieRouteA, timeTieRouteB]).get? 1).map
       TripPlan.totalCost = some 3) := by
  refine ⟨⟨rfl, by decide, ?_⟩, ⟨rfl, by norm_num [timeTieRouteA, timeTieRouteB], ?_⟩⟩
  · norm_num [selectOptimalPlans, scanMinBy, costTieRouteA, costTieRouteB]
  · norm_num [selectOptimalPlans, scanMinBy, timeTieRouteA, timeTieRouteB]

/-- The first element of the list attaining the minimal value of `f` —
the tie-break the strict-`<` scans actually implement. -/
def firstArgminBy {α β : Type} [DecidableEq α] [LinearOrder β] (f : α → β)
    (l : List α) : Option α :=
  l.find? fun x => decide (∀ y ∈ l, f x ≤ f y)

theorem find?_of_prefix_false {α : Type} (p : α → Bool) :
    ∀ (pre : List α) (m : α) (post : List α),
    (∀ x ∈ pre, p x = false) → p m = true →
    (pre ++ m :: post).find? p = some m := by
  intro pre
  induction pre with
  | nil =>
    intro m post _ hm
    exact List.find?_cons_of_pos _ hm
  | cons a pre ih =>
    intro m post hpre hm
    have ha : p a = false := hpre a (List.mem_cons_self a pre)
    rw [List.cons_append, List.find?_cons_of_neg _ (by simp [ha])]
    exact ih m post (fun x hx => hpre x (List.mem_cons_of_mem a hx)) hm

theorem scanMinBy_eq_firstArgminBy {α β : Type} [DecidableEq α]
    [LinearOrder β] (f : α → β) (first : α) (rest : List α) :
    firstArgminBy f (first :: rest)
      = some (scanMinBy f first (first :: rest)) := by
  rcases scanMinBy_spec f (first :: rest) first with
    ⟨hw, hmin⟩ | ⟨pre, m, post, hl, hw, hlt, hpre, hmin⟩
  · rw [hw]
    unfold firstArgminBy
    refine List.find?_cons_of_pos _ ?_
    simp only [decide_eq_true_eq]
    intro y hy
    exact hmin y hy
  · rw [hw]
    unfold firstArgminBy
    rw [hl]
    refine find?_of_prefix_false _ pre m post ?_ ?_
    · intro x hx
      simp only [decide_eq_false_iff_not]
      intro hall
      have hmx : m ∈ pre ++ m :: post := by simp
      exact absurd (hall m hmx) (not_le.mpr (hpre x hx))
    · simp only [decide_eq_true_eq]
      intro y hy
      exact hmin y (hl ▸ hy)

/-- C2 (amended): the cheapest plan is built from the FIRST candidate in
generation order attaining the minimal totalCost, and the fastest plan from
the FIRST candidate attaining the minimal totalTime — ties are broken by
generation order, not by the secondary objective. -/
theorem claim_C2_amended (routes : List RouteCandidate) (hne : routes ≠ []) :
    ∃ c₁ c₂,
      firstArgminBy RouteCandidate.totalCost routes = some c₁ ∧
      firstArgminBy RouteCandidate.totalTime routes = some c₂ ∧
      (selectOptimalPlans routes).get? 0
        = some { type := "cheapest", totalCost := c₁.totalCost,
                 totalTime := c₁.totalTime, route := c₁.segments } ∧
      (selectOptimalPlans routes).get? 1
        = some { type := "fastest", totalCost := c₂.totalCost,
                 totalTime := c₂.totalTime, route := c₂.segments } := by
  cases routes with
  | nil => exact absurd rfl hne
  | cons first rest =>
    exact ⟨_, _, scanMinBy_eq_firstArgminBy RouteCandidate.totalCost first rest,
      scanMinBy_eq_firstArgminBy RouteCandidate.totalTime first rest, rfl, rfl⟩

/-- Witness for C2 (amended) at the concrete cost-tie pair. -/
theorem claim_C2_amended_witness :
    [costTieRouteA, costTieRouteB] ≠ ([] : List RouteCandidate) ∧
    (∃ c₁ c₂,
      firstArgminBy RouteCandidate.totalCost [costTieRouteA, costTieRouteB]
        = some c₁ ∧
      firstArgminBy RouteCandidate.totalTime [costTieRouteA, costTieRouteB]
        = some c₂ ∧
      (selectOptimalPlans [costTieRouteA, costTieRouteB]).get? 0
        = some { type := "cheapest", totalCost := c₁.totalCost,
                 totalTime := c₁.totalTime, route := c₁.segments } ∧
      (selectOptimalPlans [costTieRouteA, costTieRouteB]).get? 1
        = some { type := "fastest", totalCost := c₂.totalCost,
                 totalTime := c₂.totalTime, route := c₂.segments }) :=
  ⟨by decide, claim_C2_amended [costTieRouteA, costTieRouteB] (by decide)⟩

/-- The (chosen element, remaining list) pairs in index order: entry `i` is
`(l[i], l[:i] ++ l[i+1:])`, as built by the loop of
`generateStopPermutations` (src/internal/service/routing_service.go lines
326-329). -/
def removeEach {α : Type} : List α → List (α × List α)
  | [] => []
  | a :: as => (a, as) :: (removeEach as).map (fun p => (p.1, a :: p.2))

theorem removeEach_map_fst {α : Type} :
    ∀ (l : List α), (removeEach l).map Prod.fst = l := by
  intro l
  induction l with
  | nil => rfl
  | cons a as ih =>
    simp only [removeEach, List.map_cons, List.map_map]
    congr 1

theorem removeEach_length_self {α : Type} (l : List α) :
    (removeEach l).length = l.length := by
  have h := removeEach_map_fst l
  calc (removeEach l).length = ((removeEach l).map Prod.fst).length := by
        rw [List.length_map]
    _ = l.length := by rw [h]

theorem removeEach_perm {α : Type} :
    ∀ (l : List α) (p : α × List α), p ∈ removeEach l →
      List.Perm (p.1 :: p.2) l := by
  intro l
  induction l with
  | nil => intro p hp; simp [removeEach] at hp
  | cons a as ih =>
    intro p hp
    rcases List.mem_cons.mp hp with rfl | hp
    · exact List.Perm.refl _
    · obtain ⟨q, hq, rfl⟩ := List.mem_map.mp hp
      have h1 : List.Perm (q.1 :: a :: q.2) (a :: q.1 :: q.2) :=
        List.Perm.swap a q.1 q.2
      exact h1.trans ((ih q hq).cons a)

theorem removeEach_snd_length {α : Type} (l : List α) (p : α × List α)
    (hp : p ∈ removeEach l) : p.2.length + 1 = l.length := by
  have h := (removeEach_perm l p hp).length_eq
  simpa using h

theorem removeEach_mem_of_mem {α : Type} [DecidableEq α] :
    ∀ (l : List α) (x : α), x ∈ l → (x, l.erase x) ∈ removeEach l := by
  intro l
  induction l with
  | nil => intro x hx; simp at hx
  | cons a as ih =>
    intro x hx
    by_cases hax : a = x
    · subst hax
      rw [List.erase_cons_head]
      exact List.mem_cons_self _ _
    · have hxas : x ∈ as := by
        rcases List.mem_cons.mp hx with rfl | h
        · exact absurd rfl hax
        · exact h
      have hmem := ih x hxas
      have herase : (a :: as).erase x = a :: as.erase x :=
        List.erase_cons_tail (by simp [hax])
      rw [herase]
      refine List.mem_cons_of_mem _ ?_
      exact List.mem_map.mpr ⟨(x, as.erase x), hmem, rfl⟩

theorem removeEach_pairwise_fst_ne {α : Type} (l : List α) (h : l.Nodup) :
    (removeEach l).Pairwise (fun p q => p.1 ≠ q.1) := by
  have h2 : ((removeEach l).map Prod.fst).Nodup := by
    rw [removeEach_map_fst]
    exact h
  exact List.pairwise_map.mp h2

/-- `DefaultRoutingService.generateStopPermutations`
(src/internal/service/routing_service.go lines 320-340): lists of length at
most 1 are their own sole permutation; otherwise each element in turn is
removed and prepended to every permutation of the remainder.  The Go
recursion removes one element per call; `fuel`, fixed to the list length by
the wrapper, makes that structural. -/
def generateStopPermutationsF {α : Type} : Nat → List α → List (List α)
  | 0, l => [l]
  | fuel + 1, l =>
    if l.length ≤ 1 then [l]
    else (removeEach l).flatMap fun p =>
      (generateStopPermutationsF fuel p.2).map fun q => p.1 :: q

def generateStopPermutations {α : Type} (stops : List α) : List (List α) :=
  generateStopPermutationsF stops.length stops

/-- The orderings evaluated by `DefaultRoutingService.generateRoutes`
(src/internal/service/routing_service.go lines 118-138): the first stop
followed by each permutation of the remaining stops. -/
def routeOrderings {α : Type} (stops : List α) : List (List α) :=
  match stops with
  | [] => []
  | s :: rest => (generateStopPermutations rest).map (fun perm => s :: perm)

theorem count_eq_one_of_nodup_mem {α : Type} [BEq α] [LawfulBEq α]
    {l : List α} {a : α} (hnd : l.Nodup) (ha : a ∈ l) : l.count a = 1 := by
  induction l with
  | nil => simp at ha
  | cons x l ih =>
    rcases List.mem_cons.mp ha with rfl | ha2
    · rw [List.count_cons_self]
      have hnotmem : a ∉ l := (List.nodup_cons.mp hnd).1
      rw [List.count_eq_zero.mpr hnotmem]
    · rw [List.count_cons_of_ne ?_ l, ih (List.nodup_cons.mp hnd).2 ha2]
      intro heq
      exact (List.nodup_cons.mp hnd).1 (heq ▸ ha2)

theorem genPermsF_perm {α : Type} :
    ∀ (n : Nat) (l : List α), l.length = n →
    ∀ p ∈ generateStopPermutationsF n l, List.Perm p l := by
  intro n
  induction n with
  | zero =>
    intro l _ p hp
    simp only [generateStopPermutationsF, List.mem_singleton] at hp
    subst hp
    exact List.Perm.refl _
  | succ n ih =>
    intro l hl p hp
    simp only [generateStopPermutationsF] at hp
    split_ifs at hp with hle
    · simp only [List.mem_singleton] at hp
      subst hp
      exact List.Perm.refl _
    · obtain ⟨pr, hpr, hmem⟩ := List.mem_flatMap.mp hp
      obtain ⟨q, hq, rfl⟩ := List.mem_map.mp hmem
      have hlen : pr.2.length = n := by
        have := removeEach_snd_length l pr hpr
        omega
      have hq2 := ih pr.2 hlen q hq
      exact (hq2.cons pr.1).trans (removeEach_perm l pr hpr)

theorem genPermsF_complete {α : Type} [DecidableEq α] :
    ∀ (n : Nat) (l : List α), l.length = n →
    ∀ p, List.Perm p l → p ∈ generateStopPermutationsF n l := by
  intro n
  induction n with
  | zero =>
    intro l hl p hp
    have hl0 : l = [] := List.length_eq_zero.mp hl
    subst hl0
    have : p = [] := List.Perm.eq_nil hp
    subst this
    simp [generateStopPermutationsF]
  | succ n ih =>
    intro l hl p hp
    simp only [generateStopPermutationsF]
    split_ifs with hle
    · have h1 : l.length = 1 := by omega
      obtain ⟨x, hx⟩ := List.length_eq_one.mp h1
      subst hx
      have : p = [x] := List.perm_singleton.mp hp
      simp [this]
    · cases p with
      | nil =>
        have := hp.length_eq
        simp at this
        omega
      | cons x q =>
        have hx : x ∈ l ∧ List.Perm q (l.erase x) :=
          List.cons_perm_iff_perm_erase.mp hp
        have hmem := removeEach_mem_of_mem l x hx.1
        have hlen : (l.erase x).length = n := by
          have := List.length_erase_of_mem hx.1
          omega
        have hq := ih (l.erase x) hlen q hx.2
        exact List.mem_flatMap.mpr
          ⟨(x, l.erase x), hmem, List.mem_map.mpr ⟨q, hq, rfl⟩⟩

theorem genPermsF_length {α : Type} :
    ∀ (n : Nat) (l : List α), l.length = n →
    (generateStopPermutationsF n l).length = Nat.factorial n := by
  intro n
  induction n with
  | zero => intro l _; rfl
  | succ n ih =>
    intro l hl
    simp only [generateStopPermutationsF]
    split_ifs with hle
    · have h1 : n = 0 := by omega
      subst h1
      rfl
    · rw [List.length_flatMap]
      have hmap : (removeEach l).map
            (List.length ∘ fun p => (generateStopPermutationsF n p.2).map
              (fun q => p.1 :: q))
          = (removeEach l).map (fun _ => Nat.factorial n) := by
        refine List.map_congr_left ?_
        intro p hp
        show ((generateStopPermutationsF n p.2).map (fun q => p.1 :: q)).length = _
        rw [List.length_map]
        refine ih p.2 ?_
        have := removeEach_snd_length l p hp
        omega
      rw [hmap, List.map_const', List.sum_replicate, smul_eq_mul,
        removeEach_length_self, hl, Nat.factorial_succ]

theorem genPermsF_nodup {α : Type} :
    ∀ (n : Nat) (l : List α), l.length = n → l.Nodup →
    (generateStopPermutationsF n l).Nodup := by
  intro n
  induction n with
  | zero => intro l _ _; exact List.nodup_singleton _
  | succ n ih =>
    intro l hl hnd
    simp only [generateStopPermutationsF]
    split_ifs with hle
    · exact List.nodup_singleton _
    · rw [List.nodup_flatMap]
      constructor
      · intro p hp
        refine List.Nodup.map ?_ ?_
        · intro q q' hqq
          injection hqq
        · have hpl : (p.1 :: p.2).Nodup :=
            ((removeEach_perm l p hp).nodup_iff).mpr hnd
          refine ih p.2 ?_ (List.nodup_cons.mp hpl).2
          have := removeEach_snd_length l p hp
          omega
      · have hpw := removeEach_pairwise_fst_ne l hnd
        refine hpw.imp ?_
        intro p q hne
        intro o hop hoq
        obtain ⟨a, _, rfl⟩ := List.mem_map.mp hop
        obtain ⟨b, _, hb⟩ := List.mem_map.mp hoq
        injection hb.symm with h1 h2
        exact hne h1

/-- C7: with pairwise-distinct stops and the first stop fixed, the orderings
evaluated by `generateRoutes` are exactly the first stop followed by a
permutation of the remaining stops: every ordering has that shape, every
permutation of the rest appears, it appears exactly once, and there are
(N−1)! orderings. -/
theorem claim_C7_permutations (s : Stop) (rest : List Stop)
    (_hlen : 2 ≤ (s :: rest).length) (hnd : (s :: rest).Nodup) :
    (∀ o ∈ routeOrderings (s :: rest), ∃ p, o = s :: p ∧ List.Perm p rest) ∧
    (∀ p, List.Perm p rest → (s :: p) ∈ routeOrderings (s :: rest)) ∧
    (∀ p, List.Perm p rest → (routeOrderings (s :: rest)).count (s :: p) = 1) ∧
    (routeOrderings (s :: rest)).length = Nat.factorial rest.length := by
  have hndr : rest.Nodup := (List.nodup_cons.mp hnd).2
  have hmem : ∀ p, List.Perm p rest → (s :: p) ∈ routeOrderings (s :: rest) := by
    intro p hp
    simp only [routeOrderings, generateStopPermutations]
    exact List.mem_map.mpr ⟨p, genPermsF_complete rest.length rest rfl p hp, rfl⟩
  refine ⟨?_, hmem, ?_, ?_⟩
  · intro o ho
    simp only [routeOrderings, generateStopPermutations] at ho
    obtain ⟨p, hp, rfl⟩ := List.mem_map.mp ho
    exact ⟨p, rfl, genPermsF_perm rest.length rest rfl p hp⟩
  · intro p hp
    have hnodup : (routeOrderings (s :: rest)).Nodup := by
      simp only [routeOrderings, generateStopPermutations]
      refine List.Nodup.map ?_ (genPermsF_nodup rest.length rest rfl hndr)
      intro q q' hqq
      injection hqq
    exact count_eq_one_of_nodup_mem hnodup (hmem p hp)
  · simp only [routeOrderings, generateStopPermutations]
    rw [List.length_map]
    exact genPermsF_length rest.length rest rfl

/-- Concrete stops for the C7 witness. -/
def stopHome : Stop :=
  { id := "s1", address := "800 Robson St", lat := 0, lng := 0, duration := 60 }

def stopGallery : Stop :=
  { id := "s2", address := "750 Hornby St", lat := 1, lng := 2, duration := 45 }

def stopPark : Stop :=
  { id := "s3", address := "Stanley Park", lat := 3, lng := 4, duration := 90 }

/-- Witness for C7 at a concrete 3-stop trip. -/
theorem claim_C7_witness :
    (2 ≤ ([stopHome, stopGallery, stopPark] : List Stop).length ∧
      ([stopHome, stopGallery, stopPark] : List Stop).Nodup) ∧
    ((∀ o ∈ routeOrderings [stopHome, stopGallery, stopPark],
        ∃ p, o = stopHome :: p ∧ List.Perm p [stopGallery, stopPark]) ∧
     (∀ p, List.Perm p [stopGallery, stopPark] →
        (stopHome :: p) ∈ routeOrderings [stopHome, stopGallery, stopPark]) ∧
     (∀ p, List.Perm p [stopGallery, stopPark] →
        (routeOrderings [stopHome, stopGallery, stopPark]).count (stopHome :: p)
          = 1) ∧
     (routeOrderings [stopHome, stopGallery, stopPark]).length
        = Nat.factorial ([stopGallery, stopPark] : List Stop).length) :=
  ⟨⟨by decide, by decide⟩,
    claim_C7_permutations stopHome [stopGallery, stopPark] (by decide) (by decide)⟩

/-- `domain.Preferences` (src/app/internal/domain/models.go lines 74-77). -/
structure Preferences where
  costWeight : ℚ
  timeWeight : ℚ
deriving DecidableEq, Repr

/-- `domain.TripRequest` (src/app/internal/domain/models.go lines 66-71).
The `Timezone` field is omitted: `DefaultRoutingService` never reads it. -/
structure TripRequest where
  stops : List Stop
  startTime : Nat
  preferences : Preferences
deriving DecidableEq, Repr

/-- The collaborators consumed by the routing service, as oracle functions:
`maps.MapsService.GetTravelTime` (src/unnamed/part_010 lines 38-66, which
returns `0, err` on every error path), `maps.CalculateWalkingTime`
(src/unnamed/part_010 lines 152-162, pure haversine-based float math) and
`repository.ParkingRepository.GetParkingMetersNear` (lat, lng, radius km).
The claims under study quantify over identical collaborator answers. -/
structure Collaborators where
  getTravelTime : Location → Location → Nat → Except String Nat
  calculateWalkingTime : Location → Location → Nat
  getParkingMetersNear : ℚ → ℚ → ℚ → List ParkingMeter

/-- The per-stop geocoding step of `DefaultRoutingService.PlanTrip`
(src/internal/service/routing_service.go lines 44-66, identical in
src/unnamed/part_007): the stop is copied, and geocoded exactly when both
coordinates equal 0; a geocoding error aborts the whole call. -/
def resolveStop (geocode : String → Except String Location) (stop : Stop) :
    Except String Stop :=
  if stop.lat = 0 ∧ stop.lng = 0 then
    match geocode stop.address with
    | .error e => .error ("failed to geocode address " ++ stop.address ++ ": " ++ e)
    | .ok location =>
      .ok { stop with lat := location.lat, lng := location.lng }
  else .ok stop

/-- C10: a stop is sent to geocoding exactly when both coordinates equal 0.
With a nonzero coordinate the stop passes through unchanged and the result
does not depend on the geocoder at all; with (0,0) the result is entirely
determined by the geocoder's answer — so (0,0) is indistinguishable from
absent coordinates. -/
theorem claim_C10_geocode_iff_zero (stop : Stop) :
    ((stop.lat ≠ 0 ∨ stop.lng ≠ 0) →
      ∀ g₁ g₂ : String → Except String Location,
        resolveStop g₁ stop = .ok stop ∧
        resolveStop g₁ stop = resolveStop g₂ stop) ∧
    (stop.lat = 0 ∧ stop.lng = 0 →
      ∀ g : String → Except String Location,
        resolveStop g stop
          = match g stop.address with
            | .error e =>
              .error ("failed to geocode address " ++ stop.address ++ ": " ++ e)
            | .ok location =>
              .ok { stop with lat := location.lat, lng := location.lng }) := by
  constructor
  · intro hnz g₁ g₂
    have hcond : ¬(stop.lat = 0 ∧ stop.lng = 0) := by tauto
    rw [resolveStop, if_neg hcond, resolveStop, if_neg hcond]
    exact ⟨rfl, rfl⟩
  · intro hz g
    rw [resolveStop, if_pos hz]

/-- A geocoder returning a fixed location, and one that always fails. -/
def geoConst : String → Except String Location :=
  fun _ => .ok { lat := 10, lng := 20 }

def geoFail : String → Except String Location :=
  fun _ => .error "ZERO_RESULTS"

/-- Witness for C10: a stop with a nonzero coordinate passes through both
geocoders unchanged, and a (0,0) stop picks up the geocoder's answer. -/
theorem claim_C10_witness :
    ((stopGallery.lat ≠ 0 ∨ stopGallery.lng ≠ 0) ∧
      (resolveStop geoFail stopGallery = .ok stopGallery ∧
       resolveStop geoFail stopGallery = resolveStop geoConst stopGallery)) ∧
    ((stopHome.lat = 0 ∧ stopHome.lng = 0) ∧
      resolveStop geoConst stopHome
        = .ok { stopHome with lat := 10, lng := 20 }) := by
  refine ⟨⟨by decide, (claim_C10_geocode_iff_zero stopGallery).1 (by decide)
    geoFail geoConst⟩, ⟨by decide, ?_⟩⟩
  have h := (claim_C10_geocode_iff_zero stopHome).2 (by decide) geoConst
  exact h

/-- The `for i := 1; i < len(stops); i++` loop of copy B's
`buildRouteCandidate` (src/unnamed/part_007 lines 162-218): walk consecutive
stop pairs carrying the clock and the segment/cost/time accumulators;
`none` models the `return nil` paths (failed travel-time lookup, no meters,
no feasible meter). -/
def buildLoopB (C : Collaborators) (po : String → List ParkingMeter) :
    Stop → List Stop → Nat → List RouteSegment → ℚ → Nat →
    Option (List RouteSegment × ℚ × Nat)
  | _, [], _, segs, cost, time => some (segs, cost, time)
  | fromStop, toStop :: rest, currentTime, segs, cost, time =>
    match C.getTravelTime ⟨fromStop.lat, fromStop.lng⟩ ⟨toStop.lat, toStop.lng⟩
        currentTime with
    | .error _ => none
    | .ok travelTime =>
      if (po toStop.id).length = 0 then none
      else
        match GetOptimalParkingMeter (po toStop.id) (currentTime + travelTime)
            (toStop.duration : Int) with
        | (none, _) => none
        | (some bestMeter, parkingCost) =>
          let walkingTime := C.calculateWalkingTime
            ⟨bestMeter.lat, bestMeter.lng⟩ ⟨toStop.lat, toStop.lng⟩
          buildLoopB C po toStop rest
            (currentTime + travelTime + walkingTime + toStop.duration)
            (segs ++ [{ fromStop := fromStop, toStop := toStop,
                        parkingMeter := bestMeter, travelTime := travelTime,
                        parkingCost := parkingCost,
                        walkingTime := walkingTime }])
            (cost + parkingCost)
            (time + (travelTime + walkingTime + toStop.duration))

/-- Copy B's `DefaultRoutingService.buildRouteCandidate`
(src/unnamed/part_007 lines 154-232). -/
def buildRouteCandidateB (C : Collaborators) (po : String → List ParkingMeter)
    (request : TripRequest) (stops : List Stop) : Option RouteCandidate :=
  match stops with
  | [] =>
    some { stops := [], segments := [], totalCost := 0, totalTime := 0,
           hybridScore := request.preferences.costWeight * 0
             + request.preferences.timeWeight * (0 : ℚ) / 60 }
  | s :: rest =>
    match buildLoopB C po s rest request.startTime [] 0 0 with
    | none => none
    | some (segs, totalCost, totalTime) =>
      some { stops := stops, segments := segs, totalCost := totalCost,
             totalTime := totalTime,
             hybridScore := request.preferences.costWeight * totalCost
               + request.preferences.timeWeight * (totalTime : ℚ) / 60 }

/-- Copy B's `DefaultRoutingService.evaluateRouteWithParkingCombinations`
(src/unnamed/part_007 lines 141-151): exactly one candidate per ordering,
or none. -/
def evaluateRouteWithParkingCombinationsB (C : Collaborators)
    (po : String → List ParkingMeter) (request : TripRequest)
    (stops : List Stop) : List RouteCandidate :=
  match buildRouteCandidateB C po request stops with
  | none => []
  | some candidate => [candidate]

/-- Copy B's `DefaultRoutingService.generateRoutes`
(src/unnamed/part_007 lines 118-138). -/
def generateRoutesB (C : Collaborators) (po : String → List ParkingMeter)
    (request : TripRequest) (stops : List Stop) : List RouteCandidate :=
  (routeOrderings stops).flatMap
    (fun route => evaluateRouteWithParkingCombinationsB C po request route)

/-- Steps 3-4 of copy B's `PlanTrip` (src/unnamed/part_007 lines 96-105),
after geocoding and meter prefetch succeeded: generate, select, and return
with a nil error — unconditionally. -/
def planTripPostResolveB (C : Collaborators) (po : String → List ParkingMeter)
    (request : TripRequest) (stops : List Stop) :
    Except String (List TripPlan) :=
  Except.ok (selectOptimalPlansB (generateRoutesB C po request stops))

theorem flatMap_evaluateB_eq_filterMap (C : Collaborators)
    (po : String → List ParkingMeter) (request : TripRequest) :
    ∀ (l : List (List Stop)),
    (l.flatMap fun route =>
        evaluateRouteWithParkingCombinationsB C po request route)
      = l.filterMap (buildRouteCandidateB C po request) := by
  intro l
  induction l with
  | nil => rfl
  | cons x l ih =>
    rw [List.flatMap_cons, List.filterMap_cons, ih]
    unfold evaluateRouteWithParkingCombinationsB
    cases buildRouteCandidateB C po request x <;> rfl

theorem length_filterMap_eq_length_filter {α β : Type} (f : α → Option β) :
    ∀ (l : List α),
    (l.filterMap f).length = (l.filter fun o => (f o).isSome).length := by
  intro l
  induction l with
  | nil => rfl
  | cons x l ih =>
    rw [List.filterMap_cons, List.filter_cons]
    cases hx : f x with
    | none => simp [hx, ih]
    | some c => simp [hx, ih]

/-- C8: in copy B's pipeline the candidates are exactly the per-ordering
builds that succeed: an ordering whose build fails (failed travel-time
lookup or no feasible parking at a stop) contributes no candidate, every
other ordering's candidate is still produced (one per succeeding
ordering), and the planning call past the upfront phase returns a nil
error no matter how many orderings failed. -/
theorem claim_C8_failures_swallowed (C : Collaborators)
    (po : String → List ParkingMeter) (request : TripRequest) (s : Stop)
    (rest : List Stop) :
    generateRoutesB C po request (s :: rest)
      = (routeOrderings (s :: rest)).filterMap
          (buildRouteCandidateB C po request) ∧
    (generateRoutesB C po request (s :: rest)).length
      = ((routeOrderings (s :: rest)).filter
          (fun o => (buildRouteCandidateB C po request o).isSome)).length ∧
    (∀ o c, o ∈ routeOrderings (s :: rest) →
      buildRouteCandidateB C po request o = some c →
      c ∈ generateRoutesB C po request (s :: rest)) ∧
    planTripPostResolveB C po request (s :: rest)
      = Except.ok (selectOptimalPlansB
          (generateRoutesB C po request (s :: rest))) := by
  have h1 : generateRoutesB C po request (s :: rest)
      = (routeOrderings (s :: rest)).filterMap
          (buildRouteCandidateB C po request) := by
    unfold generateRoutesB
    exact flatMap_evaluateB_eq_filterMap C po request _
  refine ⟨h1, ?_, ?_, rfl⟩
  · rw [h1]
    exact length_filterMap_eq_length_filter _ _
  · intro o c ho hc
    rw [h1]
    exact List.mem_filterMap.mpr ⟨o, ho, hc⟩

/-- Collaborators whose travel-time lookup always fails. -/
def failingCollaborators : Collaborators :=
  { getTravelTime := fun _ _ _ => .error "no route found",
    calculateWalkingTime := fun _ _ => 0,
    getParkingMetersNear := fun _ _ _ => [] }

/-- A two-stop request used by the routing witnesses. -/
def twoStopRequest : TripRequest :=
  { stops := [stopHome, stopGallery], startTime := 960,
    preferences := { costWeight := 1/2, timeWeight := 1/2 } }

/-- Witness for C8 at a concrete input (all travel-time lookups fail). -/
theorem claim_C8_witness :
    generateRoutesB failingCollaborators (fun _ => [unlimitedMeter])
        twoStopRequest [stopHome, stopGallery]
      = (routeOrderings [stopHome, stopGallery]).filterMap
          (buildRouteCandidateB failingCollaborators
            (fun _ => [unlimitedMeter]) twoStopRequest) ∧
    (generateRoutesB failingCollaborators (fun _ => [unlimitedMeter])
        twoStopRequest [stopHome, stopGallery]).length
      = ((routeOrderings [stopHome, stopGallery]).filter
          (fun o => (buildRouteCandidateB failingCollaborators
            (fun _ => [unlimitedMeter]) twoStopRequest o).isSome)).length ∧
    (∀ o c, o ∈ routeOrderings [stopHome, stopGallery] →
      buildRouteCandidateB failingCollaborators (fun _ => [unlimitedMeter])
          twoStopRequest o = some c →
      c ∈ generateRoutesB failingCollaborators (fun _ => [unlimitedMeter])
          twoStopRequest [stopHome, stopGallery]) ∧
    planTripPostResolveB failingCollaborators (fun _ => [unlimitedMeter])
        twoStopRequest [stopHome, stopGallery]
      = Except.ok (selectOptimalPlansB
          (generateRoutesB failingCollaborators (fun _ => [unlimitedMeter])
            twoStopRequest [stopHome, stopGallery])) :=
  claim_C8_failures_swallowed failingCollaborators (fun _ => [unlimitedMeter])
    twoStopRequest stopHome [stopGallery]

/-- Witness for C9 at a concrete input: the empty meter list. -/
theorem claim_C9_witness :
    (GetOptimalParkingMeterE true [] 600 60).2.2 = none ∧
    ((GetOptimalParkingMeterE true [] 600 60).1 = none →
      (GetOptimalParkingMeterE true [] 600 60).2.1 = 0) :=
  claim_C9_no_error true [] 600 60

/-- The loop of copy A's `calculateArrivalTime`
(src/internal/service/routing_service.go lines 342-360): travel-time errors
are ignored (`travelTime, _ :=`; the Maps implementation returns 0 with an
error), walking time is not added, and the destination's own visit duration
IS added before the arrival is reported. -/
def calcArrivalLoop (C : Collaborators) : Stop → List Stop → Nat → Nat
  | _, [], currentTime => currentTime
  | fromStop, toStop :: rest, currentTime =>
    calcArrivalLoop C toStop rest
      (currentTime +
        (match C.getTravelTime ⟨fromStop.lat, fromStop.lng⟩
            ⟨toStop.lat, toStop.lng⟩ currentTime with
         | .error _ => 0
         | .ok travelTime => travelTime)
        + toStop.duration)

/-- Copy A's `DefaultRoutingService.calculateArrivalTime`
(src/internal/service/routing_service.go lines 342-360). -/
def calculateArrivalTime (C : Collaborators) (stopsToHere : List Stop)
    (startTime : Nat) : Nat :=
  match stopsToHere with
  | [] => startTime
  | s :: rest => calcArrivalLoop C s rest startTime

/-- The `for i := 0; i < len(stops); i++` loop of copy A's
`buildRouteCandidate` (src/internal/service/routing_service.go lines
182-238): the stop at `currentStopIndex` uses the pre-selected meter and
cost; every other destination re-queries the repository at 0.5 km and
re-optimizes at `currentTime + travelTime`. -/
def buildLoopA (C : Collaborators) (currentStopIndex : Nat)
    (meter : ParkingMeter) (parkingCost : ℚ) :
    Nat → Stop → List Stop → Nat → List RouteSegment → ℚ → Nat →
    Option (List RouteSegment × ℚ × Nat)
  | _, _, [], _, segs, cost, time => some (segs, cost, time)
  | i, fromStop, toStop :: rest, currentTime, segs, cost, time =>
    match C.getTravelTime ⟨fromStop.lat, fromStop.lng⟩ ⟨toStop.lat, toStop.lng⟩
        currentTime with
    | .error _ => none
    | .ok travelTime =>
      match (if i = currentStopIndex then some (meter, parkingCost)
        else
          match GetOptimalParkingMeter
              (C.getParkingMetersNear toStop.lat toStop.lng (1/2))
              (currentTime + travelTime) (toStop.duration : Int) with
          | (none, _) => none
          | (some segMeter, segCost) => some (segMeter, segCost)) with
      | none => none
      | some (segmentMeter, segmentCost) =>
        let walkingTime := C.calculateWalkingTime
          ⟨segmentMeter.lat, segmentMeter.lng⟩ ⟨toStop.lat, toStop.lng⟩
        buildLoopA C currentStopIndex meter parkingCost (i + 1) toStop rest
          (currentTime + travelTime + walkingTime + toStop.duration)
          (segs ++ [{ fromStop := fromStop, toStop := toStop,
                      parkingMeter := segmentMeter, travelTime := travelTime,
                      parkingCost := segmentCost,
                      walkingTime := walkingTime }])
          (cost + segmentCost)
          (time + (travelTime + walkingTime + toStop.duration))

/-- Copy A's `DefaultRoutingService.buildRouteCandidate`
(src/internal/service/routing_service.go lines 176-250).  The
`arrivalTime` parameter is passed by the caller but never read in the
body, exactly as in the source. -/
def buildRouteCandidateA (C : Collaborators) (stops : List Stop)
    (currentStopIndex : Nat) (meter : ParkingMeter) (parkingCost : ℚ)
    (_arrivalTime : Nat) (request : TripRequest) : Option RouteCandidate :=
  match stops with
  | [] =>
    some { stops := [], segments := [], totalCost := 0, totalTime := 0,
           hybridScore := request.preferences.costWeight * 0
             + request.preferences.timeWeight * (0 : ℚ) / 60 }
  | s :: rest =>
    match buildLoopA C currentStopIndex meter parkingCost 1 s rest
        request.startTime [] 0 0 with
    | none => none
    | some (segs, totalCost, totalTime) =>
      some { stops := stops, segments := segs, totalCost := totalCost,
             totalTime := totalTime,
             hybridScore := request.preferences.costWeight * totalCost
               + request.preferences.timeWeight * (totalTime : ℚ) / 60 }

/-- The `for i, stop := range stops` loop of copy A's
`evaluateRouteWithParkingCombinations`
(src/internal/service/routing_service.go lines 146-170): the first stop is
skipped, and each later index contributes (at most) one full candidate,
whose selected stop's arrival time comes from `calculateArrivalTime` over
the prefix ending at that stop. -/
def evalLoopA (C : Collaborators) (po : String → List ParkingMeter)
    (request : TripRequest) (stops : List Stop) :
    Nat → List Stop → List RouteCandidate
  | _, [] => []
  | i, stop :: rest =>
    if i = 0 then evalLoopA C po request stops (i + 1) rest
    else if (po stop.id).length = 0 then evalLoopA C po request stops (i + 1) rest
    else
      match GetOptimalParkingMeter (po stop.id)
          (calculateArrivalTime C (stops.take (i + 1)) request.startTime)
          (stop.duration : Int) with
      | (none, _) => evalLoopA C po request stops (i + 1) rest
      | (some bestMeter, cost) =>
        match buildRouteCandidateA C stops i bestMeter cost
            (calculateArrivalTime C (stops.take (i + 1)) request.startTime)
            request with
        | none => evalLoopA C po request stops (i + 1) rest
        | some candidate => candidate :: evalLoopA C po request stops (i + 1) rest

/-- Copy A's `DefaultRoutingService.evaluateRouteWithParkingCombinations`
(src/internal/service/routing_service.go lines 141-173). -/
def evaluateRouteWithParkingCombinationsA (C : Collaborators)
    (po : String → List ParkingMeter) (request : TripRequest)
    (stops : List Stop) : List RouteCandidate :=
  evalLoopA C po request stops 0 stops

/-- Copy A's `DefaultRoutingService.generateRoutes`
(src/internal/service/routing_service.go lines 118-138). -/
def generateRoutesA (C : Collaborators) (po : String → List ParkingMeter)
    (request : TripRequest) (stops : List Stop) : List RouteCandidate :=
  (routeOrderings stops).flatMap
    (fun route => evaluateRouteWithParkingCombinationsA C po request route)

/-- Copy B's `generateStopPermutations` (src/unnamed/part_007 lines
302-322); its text is identical to copy A's, so the embedding shares the
same recursion helper. -/
def generateStopPermutationsB {α : Type} (stops : List α) : List (List α) :=
  generateStopPermutationsF stops.length stops

/-- Collaborators answering every travel-time query with 30 minutes, every
walking-time query with 0 minutes, and every repository query with the
single unlimited meter. -/
def constCollaborators : Collaborators :=
  { getTravelTime := fun _ _ _ => .ok 30,
    calculateWalkingTime := fun _ _ => 0,
    getParkingMetersNear := fun _ _ _ => [unlimitedMeter] }

/-- A Monday 16:00 start with equal preference weights. -/
def cexRequest : TripRequest :=
  { stops := [stopHome, stopPark], startTime := 960,
    preferences := { costWeight := 1/2, timeWeight := 1/2 } }

theorem costLoop_990 : costLoop unlimitedMeter 990 90 = 21/4 := by
  rw [costLoop]
  norm_num [minutesAtThisRate, costContribution, getNextTimeBoundary,
    getParkingRateAtTime, IsMeterActive, hourOf, weekdayOf, unlimitedMeter,
    Nat.min_def]
  rw [costLoop]
  norm_num

theorem costLoop_1080 : costLoop unlimitedMeter 1080 90 = 3 := by
  rw [costLoop]
  norm_num [minutesAtThisRate, costContribution, getNextTimeBoundary,
    getParkingRateAtTime, IsMeterActive, hourOf, weekdayOf, unlimitedMeter,
    Nat.min_def]
  rw [costLoop]
  norm_num

theorem optMeter_990 :
    GetOptimalParkingMeter [unlimitedMeter] 990 (90 : Int)
      = (some unlimitedMeter, 21/4) := by
  have hr : getParkingRateAtTime unlimitedMeter 990 = (7/2, 0) := rfl
  simp [GetOptimalParkingMeter, GetOptimalParkingMeterE, optMeterStep,
    calculateParkingCostE, hr, costLoop_990]

theorem optMeter_1080 :
    GetOptimalParkingMeter [unlimitedMeter] 1080 (90 : Int)
      = (some unlimitedMeter, 3) := by
  have hr : getParkingRateAtTime unlimitedMeter 1080 = (2, 0) := rfl
  simp [GetOptimalParkingMeter, GetOptimalParkingMeterE, optMeterStep,
    calculateParkingCostE, hr, costLoop_1080]

/-- C4 (counterexample): on the same two-stop trip, the same start instant
and identical collaborator answers, copy A prices the single stop at its
`calculateArrivalTime` arrival 17:00+60min = 18:00 (evening rate, $3.00)
while copy B prices it at the true drive arrival 16:30 (day rate, $5.25) —
the two copies produce different route-candidate sets. -/
theorem claim_C4_counterexample :
    (generateRoutesA constCollaborators (fun _ => [unlimitedMeter])
        cexRequest [stopHome, stopPark]).map RouteCandidate.totalCost = [3] ∧
    (generateRoutesB constCollaborators (fun _ => [unlimitedMeter])
        cexRequest [stopHome, stopPark]).map RouteCandidate.totalCost
      = [21/4] ∧
    generateRoutesA constCollaborators (fun _ => [unlimitedMeter])
        cexRequest [stopHome, stopPark]
      ≠ generateRoutesB constCollaborators (fun _ => [unlimitedMeter])
          cexRequest [stopHome, stopPark] := by
  have hA : (generateRoutesA constCollaborators (fun _ => [unlimitedMeter])
      cexRequest [stopHome, stopPark]).map RouteCandidate.totalCost = [3] := by
    simp [generateRoutesA, routeOrderings, generateStopPermutations,
      generateStopPermutationsF, evaluateRouteWithParkingCombinationsA,
      evalLoopA, buildRouteCandidateA, buildLoopA, calculateArrivalTime,
      calcArrivalLoop, constCollaborators, cexRequest, stopHome, stopPark,
      optMeter_1080]
  have hB : (generateRoutesB constCollaborators (fun _ => [unlimitedMeter])
      cexRequest [stopHome, stopPark]).map RouteCandidate.totalCost
      = [21/4] := by
    simp [generateRoutesB, routeOrderings, generateStopPermutations,
      generateStopPermutationsF, evaluateRouteWithParkingCombinationsB,
      buildRouteCandidateB, buildLoopB, constCollaborators, cexRequest,
      stopHome, stopPark, optMeter_990]
  refine ⟨hA, hB, ?_⟩
  intro heq
  have hmaps := congrArg (List.map RouteCandidate.totalCost) heq
  rw [hA, hB] at hmaps
  norm_num at hmaps

/-- C4 (amended): only the plan-selection and permutation-generation
components of the two routing-service copies are behaviorally identical;
the route-evaluation stages differ (see the counterexample). -/
theorem claim_C4_amended :
    (∀ routes : List RouteCandidate,
      selectOptimalPlans routes = selectOptimalPlansB routes) ∧
    (∀ stops : List Stop,
      generateStopPermutations stops = generateStopPermutationsB stops) :=
  ⟨fun _ => rfl, fun _ => rfl⟩
